import Mathlib

/-!
# Smart HTTP bridge of `git-server` (`http.go`)

A shallow embedding of the three HTTP handlers of `http.go` and of the route
table that `runHTTP` registers.

The handlers are straight-line effectful Go code over external collaborators
(go-git's transport, session and pkt-line packages, `net/http`, `log`).  Each
handler is embedded as a function from

* an `Env`: the outcome of every collaborator call, as a function of the call's
  arguments, and
* a `Request`

to a `Run`: the ordered list of the effects the handler performs (`Event`) and
how the handler's body ends (`Exit`).  The state of the `http.ResponseWriter`
after a run is obtained by replaying the events (`response`), following the
contract of `http.ResponseWriter` and `http.Error`.

Go byte slices and strings are modelled as `String`; a Go `error` is modelled
by its message (`err.Error()`).
-/

namespace GitServer

/-! ## Data model -/

/-- The value of `transport.Endpoint` that `transport.NewEndpoint` returns. -/
structure Endpoint where
  path : String
  deriving DecidableEq, Repr

/-- A `transport.Session` value; a session is identified by a handle. -/
structure Session where
  id : Nat
  deriving DecidableEq, Repr

/-- The `context.Context` of a request (`r.Context()`), identified by a handle. -/
structure Context where
  id : Nat
  deriving DecidableEq, Repr

/-- The fields of `packp.AdvRefs`.  `Prefix` is the list of payloads written
before the first reference line. -/
structure AdvRefs where
  Prefix : List String
  Head : Option String
  Capabilities : List String
  References : List (String × String)
  Peeled : List (String × String)
  Shallows : List String
  deriving DecidableEq, Repr

/-- A decoded `packp.UploadPackRequest`. -/
structure UploadPackRequest where
  wants : List String
  haves : List String
  deriving DecidableEq, Repr

/-- A decoded `packp.ReferenceUpdateRequest`. -/
structure ReferenceUpdateRequest where
  commands : List (String × String × String)
  deriving DecidableEq, Repr

/-- The `packp.UploadPackResponse` that `UploadPack` returns. -/
structure UploadPackResponse where
  acks : List String
  pack : String
  deriving DecidableEq, Repr

/-- The `packp.ReportStatus` that `ReceivePack` returns. -/
structure ReportStatus where
  unpackStatus : String
  commandStatuses : List (String × String)
  deriving DecidableEq, Repr

/-- What an `Encode(w io.Writer) error` call does with the writer it is given:
the chunks it passes to `w.Write`, in order, and the error it returns
(`none` is a nil error).  An encoder may have written before it fails. -/
structure EncodeOutcome where
  written : List String
  err : Option String
  deriving DecidableEq, Repr

/-- The parts of `*http.Request` the handlers read. -/
structure Request where
  method : String
  path : String
  query : List (String × String)
  body : String
  ctx : Context
  deriving DecidableEq, Repr

/-- `r.URL.Query().Get(key)`: the first value of `key`, the empty string when
the key is absent. -/
def Request.queryGet (r : Request) (key : String) : String :=
  match r.query.find? (fun kv => kv.1 == key) with
  | some kv => kv.2
  | none => ""

/-- The collaborators of the handlers: the result of each external call as a
function of its arguments.  `Except.error e` is a non-nil Go error with message
`e`. -/
structure Env where
  newEndpoint : String → Except String Endpoint
  newUploadPackSession : Endpoint → Except String Session
  newReceivePackSession : Endpoint → Except String Session
  advertisedReferences : Session → Context → Except String AdvRefs
  decodeUploadPackRequest : String → Except String UploadPackRequest
  decodeReferenceUpdateRequest : String → Except String ReferenceUpdateRequest
  uploadPack : Session → Context → UploadPackRequest → Except String UploadPackResponse
  receivePack : Session → Context → ReferenceUpdateRequest → Except String ReportStatus
  encodeAdvRefs : AdvRefs → EncodeOutcome
  encodeUploadPackResponse : UploadPackResponse → EncodeOutcome
  encodeReportStatus : ReportStatus → EncodeOutcome

/-- One effect of a handler, in program order. -/
inductive Event where
  /-- Effect of `log.Println`: one log entry. -/
  | log (line : String)
  /-- Effect of `rw.Header().Set(key, value)`. -/
  | headerSet (key value : String)
  /-- Effect of `http.Error(rw, msg, code)`. -/
  | httpError (msg : String) (code : Nat)
  /-- Effect of `rw.Write(chunk)`, performed by an encoder. -/
  | write (chunk : String)
  /-- Call of `transport.NewEndpoint(path)`. -/
  | newEndpoint (path : String)
  /-- Call of `gitserver.NewUploadPackSession(ep, nil)`. -/
  | newUploadPackSession (ep : Endpoint)
  /-- Call of `gitserver.NewReceivePackSession(ep, nil)`. -/
  | newReceivePackSession (ep : Endpoint)
  /-- Call of `session.AdvertisedReferencesContext(ctx)`; `none` is the nil
  (never assigned) session. -/
  | advertisedReferences (session : Option Session) (ctx : Context)
  /-- Call of `upr.Decode(r.Body)`. -/
  | decodeUploadPackRequest (body : String)
  /-- Call of `rer.Decode(r.Body)`. -/
  | decodeReferenceUpdateRequest (body : String)
  /-- Call of `sess.UploadPack(ctx, upr)`. -/
  | uploadPack (session : Session) (ctx : Context) (req : UploadPackRequest)
  /-- Call of `sess.ReceivePack(ctx, rer)`. -/
  | receivePack (session : Session) (ctx : Context) (req : ReferenceUpdateRequest)
  /-- Call of `ar.Encode(rw)`. -/
  | encodeAdvRefs (ar : AdvRefs)
  /-- Call of `res.Encode(rw)` on an upload-pack response. -/
  | encodeUploadPackResponse (res : UploadPackResponse)
  /-- Call of `res.Encode(w)` on a report status. -/
  | encodeReportStatus (res : ReportStatus)
  deriving DecidableEq, Repr

/-- How the body of a handler ends: it returns, or a runtime panic unwinds it
(a method call on a nil interface value). -/
inductive Exit where
  | returned
  | panicked
  deriving DecidableEq, Repr

/-- The observable behaviour of one handler invocation. -/
structure Run where
  events : List Event
  exit : Exit
  deriving DecidableEq, Repr

/-! ## The program -/

/-- The package variable `gitpath`. -/
def gitpath : String := "/tmp/usertest/test.git"

/-- The function `logger`: `log.Println(r.Method, r.URL.Path)`. -/
def logger (r : Request) : List Event :=
  [Event.log (r.method ++ " " ++ r.path)]

/-- The error tail shared by the handlers:
`http.Error(rw, err.Error(), http.StatusInternalServerError); log.Println(err); return`. -/
def fail500 (pre : List Event) (e : String) : Run :=
  ⟨pre ++ [Event.httpError e 500, Event.log e], Exit.returned⟩

/-- The events of an `Encode(rw)` call: the call, then the writes it performs. -/
def encodeEvents (call : Event) (o : EncodeOutcome) : List Event :=
  call :: o.written.map Event.write

/-- The end of each handler: `err = x.Encode(rw); if err != nil { ... return }`. -/
def finishEncode (pre : List Event) (call : Event) (o : EncodeOutcome) : Run :=
  match o.err with
  | some e => fail500 (pre ++ encodeEvents call o) e
  | none => ⟨pre ++ encodeEvents call o, Exit.returned⟩

/-- The `if / else if / else` of `httpInfoRefs` that assigns `session, err`:
the effects of the branch taken, and the values of `session` and `err` after
it.  Before it `session` is nil and `err` is nil (endpoint resolution
succeeded). -/
def openAdvertiser (env : Env) (service : String) (ep : Endpoint) :
    List Event × Option Session × Option String :=
  if service = "git-upload-pack" then
    match env.newUploadPackSession ep with
    | .ok s => ([Event.newUploadPackSession ep], some s, none)
    | .error e => ([Event.newUploadPackSession ep], none, some e)
  else if service = "git-receive-pack" then
    match env.newReceivePackSession ep with
    | .ok s => ([Event.newReceivePackSession ep], some s, none)
    | .error e => ([Event.newReceivePackSession ep], none, some e)
  else
    ([Event.httpError "service type not recognized" 400], none, none)

/-- The assignment `ar.Prefix = [][]byte{[]byte("# service=" + service), pktline.Flush}`;
`pktline.Flush` is the empty payload. -/
def setPrefix (ar : AdvRefs) (service : String) : AdvRefs :=
  { ar with Prefix := ["# service=" ++ service, ""] }

/-- The handler `httpInfoRefs`. -/
def httpInfoRefs (env : Env) (r : Request) : Run :=
  let service := r.queryGet "service"
  let t1 := logger r ++
    [Event.headerSet "Content-Type" ("application/x-" ++ service ++ "-advertisement")]
  let t2 := t1 ++ [Event.newEndpoint gitpath]
  match env.newEndpoint gitpath with
  | .error e => fail500 t2 e
  | .ok ep =>
    match openAdvertiser env service ep with
    | (evs, _, some e) => fail500 (t2 ++ evs) e
    | (evs, none, none) =>
      ⟨t2 ++ evs ++ [Event.advertisedReferences none r.ctx], Exit.panicked⟩
    | (evs, some session, none) =>
      let t3 := t2 ++ evs ++ [Event.advertisedReferences (some session) r.ctx]
      match env.advertisedReferences session r.ctx with
      | .error e => fail500 t3 e
      | .ok ar =>
        let ar1 := setPrefix ar service
        finishEncode t3 (Event.encodeAdvRefs ar1) (env.encodeAdvRefs ar1)

/-- The handler `httpGitUploadPack`. -/
def httpGitUploadPack (env : Env) (r : Request) : Run :=
  let t1 := logger r ++
    [Event.headerSet "Content-Type" "application/x-git-upload-pack-result"]
  let t2 := t1 ++ [Event.decodeUploadPackRequest r.body]
  match env.decodeUploadPackRequest r.body with
  | .error e => fail500 t2 e
  | .ok upr =>
    let t3 := t2 ++ [Event.newEndpoint gitpath]
    match env.newEndpoint gitpath with
    | .error e => fail500 t3 e
    | .ok ep =>
      let t4 := t3 ++ [Event.newUploadPackSession ep]
      match env.newUploadPackSession ep with
      | .error e => fail500 t4 e
      | .ok sess =>
        let t5 := t4 ++ [Event.uploadPack sess r.ctx upr]
        match env.uploadPack sess r.ctx upr with
        | .error e => fail500 t5 e
        | .ok res =>
          finishEncode t5 (Event.encodeUploadPackResponse res)
            (env.encodeUploadPackResponse res)

/-- The handler `httpGitReceivePack`. -/
def httpGitReceivePack (env : Env) (r : Request) : Run :=
  let t1 := logger r ++
    [Event.headerSet "Content-Type" "application/x-git-receive-pack-result"]
  let t2 := t1 ++ [Event.decodeReferenceUpdateRequest r.body]
  match env.decodeReferenceUpdateRequest r.body with
  | .error e => fail500 t2 e
  | .ok rer =>
    let t3 := t2 ++ [Event.newEndpoint gitpath]
    match env.newEndpoint gitpath with
    | .error e => fail500 t3 e
    | .ok ep =>
      let t4 := t3 ++ [Event.newReceivePackSession ep]
      match env.newReceivePackSession ep with
      | .error e => fail500 t4 e
      | .ok sess =>
        let t5 := t4 ++ [Event.receivePack sess r.ctx rer]
        match env.receivePack sess r.ctx rer with
        | .error e => fail500 t5 e
        | .ok res =>
          finishEncode t5 (Event.encodeReportStatus res) (env.encodeReportStatus res)

/-- The three handlers. -/
inductive Handler where
  | infoRefs
  | gitUploadPack
  | gitReceivePack
  deriving DecidableEq, Repr

/-- The body of a handler. -/
def Handler.run : Handler → Env → Request → Run
  | .infoRefs => httpInfoRefs
  | .gitUploadPack => httpGitUploadPack
  | .gitReceivePack => httpGitReceivePack

/-- The patterns `runHTTP` registers with `http.HandleFunc`, in order.  None of
them names a method or a host, and none ends in a slash. -/
def routes : List (String × Handler) :=
  [("/info/refs", Handler.infoRefs),
   ("/git-upload-pack", Handler.gitUploadPack),
   ("/git-receive-pack", Handler.gitReceivePack)]

/-- The handler the default mux selects for a request: a pattern with no
method, no host and no trailing slash matches the requests whose path is the
pattern, whatever their method.  `none`: none of the registered handlers is
called (the mux answers itself). -/
def route (r : Request) : Option Handler :=
  (routes.find? (fun p => p.1 == r.path)).map Prod.snd

/-- What the server runs for a request: the body of the selected handler;
`none` when the mux calls none of the registered handlers. -/
def serve (env : Env) (r : Request) : Option Run :=
  (route r).map (fun h => h.run env r)

/-! ## The response writer -/

/-- The state of an `http.ResponseWriter`: the header map, and once the status
line has been written (`status` is `some`), the headers sent with it and the
body written so far. -/
structure Response where
  header : List (String × String)
  status : Option Nat
  sent : List (String × String)
  body : String
  deriving DecidableEq, Repr

/-- A fresh response writer. -/
def Response.empty : Response := ⟨[], none, [], ""⟩

/-- `Header().Set(k, v)`. -/
def setHeader (h : List (String × String)) (k v : String) : List (String × String) :=
  (k, v) :: h.filter (fun kv => kv.1 != k)

/-- `Header().Get(k)`. -/
def getHeader (h : List (String × String)) (k : String) : Option String :=
  (h.find? (fun kv => kv.1 == k)).map Prod.snd

/-- `WriteHeader(code)`: the first call fixes the status and sends the header
map as it is then; a later call is superfluous and ignored. -/
def Response.writeHeader (w : Response) (code : Nat) : Response :=
  match w.status with
  | some _ => w
  | none => { w with status := some code, sent := w.header }

/-- `Write(chunk)`: writes the header with status 200 when no header has been
written yet, then appends the chunk to the body. -/
def Response.write (w : Response) (chunk : String) : Response :=
  let w1 := w.writeHeader 200
  { w1 with body := w1.body ++ chunk }

/-- `http.Error(w, msg, code)`: sets the plain-text content type, writes the
header with `code`, and prints `msg` and a newline to the body. -/
def Response.error (w : Response) (msg : String) (code : Nat) : Response :=
  let h1 := setHeader w.header "Content-Type" "text/plain; charset=utf-8"
  let h2 := setHeader h1 "X-Content-Type-Options" "nosniff"
  ({ w with header := h2 }.writeHeader code).write (msg ++ "\n")

/-- The effect of one event on the response writer. -/
def Response.step (w : Response) : Event → Response
  | .headerSet k v => { w with header := setHeader w.header k v }
  | .httpError msg code => w.error msg code
  | .write chunk => w.write chunk
  | _ => w

/-- The response writer after the events of a run. -/
def response (events : List Event) : Response :=
  events.foldl Response.step Response.empty

/-- The status of the reply: the one written, or 200 when the handler wrote
none (the server then sends 200 when the handler returns). -/
def Response.code (w : Response) : Nat := w.status.getD 200

/-- The headers of the reply: those sent with the status line, or the header
map when no status line has been written yet. -/
def Response.headers (w : Response) : List (String × String) :=
  match w.status with
  | some _ => w.sent
  | none => w.header

/-- The log entries of a run, in order. -/
def logLines : List Event → List String
  | [] => []
  | .log l :: es => l :: logLines es
  | _ :: es => logLines es

/-- An event that acts on the response writer. -/
def Event.isResponseWrite : Event → Bool
  | .headerSet _ _ => true
  | .httpError _ _ => true
  | .write _ => true
  | _ => false

/-- An event that is an error response (`http.Error`). -/
def Event.isErrorResponse : Event → Bool
  | .httpError _ _ => true
  | _ => false

/-- An event that opens a session. -/
def Event.isSessionOpen : Event → Bool
  | .newUploadPackSession _ => true
  | .newReceivePackSession _ => true
  | _ => false

/-- The service values `httpInfoRefs` compares the `service` parameter with. -/
def recognized (service : String) : Bool :=
  service == "git-upload-pack" || service == "git-receive-pack"

/-! ## Sample collaborators, used to evaluate the model on concrete inputs -/

/-- A sample advertisement: one branch, no prefix. -/
def sampleAdvRefs : AdvRefs :=
  { Prefix := ["stale"], Head := some "oid1", Capabilities := ["ofs-delta"],
    References := [("refs/heads/main", "oid1")], Peeled := [], Shallows := [] }

/-- Collaborators that all succeed. -/
def okEnv : Env where
  newEndpoint := fun p => .ok ⟨p⟩
  newUploadPackSession := fun _ => .ok ⟨1⟩
  newReceivePackSession := fun _ => .ok ⟨2⟩
  advertisedReferences := fun _ _ => .ok sampleAdvRefs
  decodeUploadPackRequest := fun b => .ok ⟨[b], []⟩
  decodeReferenceUpdateRequest := fun b => .ok ⟨[("old", "new", b)]⟩
  uploadPack := fun _ _ _ => .ok ⟨[], "PACK"⟩
  receivePack := fun _ _ _ => .ok ⟨"ok", []⟩
  encodeAdvRefs := fun ar => ⟨ar.Prefix ++ ar.References.map Prod.fst, none⟩
  encodeUploadPackResponse := fun res => ⟨["0008NAK\n", res.pack], none⟩
  encodeReportStatus := fun res => ⟨["unpack " ++ res.unpackStatus ++ "\n"], none⟩

/-- A `GET` request. -/
def getRequest (path : String) (query : List (String × String)) : Request :=
  ⟨"GET", path, query, "", ⟨7⟩⟩

/-- A `POST` request. -/
def postRequest (path body : String) : Request :=
  ⟨"POST", path, [], body, ⟨7⟩⟩

/-- A request body that fails to decode, for both pack handlers. -/
def badBodyEnv : Env :=
  { okEnv with
    decodeUploadPackRequest := fun _ => .error "invalid pkt-len found"
    decodeReferenceUpdateRequest := fun _ => .error "invalid pkt-len found" }

/-- An upload-pack encoder that fails after it has written the `NAK` line. -/
def brokenPackEnv : Env :=
  { okEnv with encodeUploadPackResponse := fun _ => ⟨["0008NAK\n"], some "pack stream broken"⟩ }

/-- Collaborators whose session provider refuses to open a session. -/
def noSessionEnv : Env :=
  { okEnv with
    newUploadPackSession := fun _ => .error "repository not found"
    newReceivePackSession := fun _ => .error "repository not found" }

/-! ## Auxiliary definitions for the statements -/

/-- The concatenation of the chunks an encoder wrote. -/
def joinChunks : List String → String
  | [] => ""
  | c :: cs => c ++ joinChunks cs

/-- No response write follows the first error response of the list. -/
def quietAfterError : List Event → Bool
  | [] => true
  | ev :: es =>
    if ev.isErrorResponse then es.all (fun e => !e.isResponseWrite) else quietAfterError es

/-! ## The response writer: replaying events -/

theorem response_append (a b : List Event) :
    response (a ++ b) = b.foldl Response.step (response a) := by
  simp [response, List.foldl_append]

theorem writeHeader_body (w : Response) (c : Nat) : (w.writeHeader c).body = w.body := by
  cases hs : w.status <;> simp [Response.writeHeader, hs]

theorem foldl_writes_body (ws : List String) (w : Response) :
    ((ws.map Event.write).foldl Response.step w).body = w.body ++ joinChunks ws := by
  induction ws generalizing w with
  | nil => simp [joinChunks]
  | cons c cs ih =>
    simp only [List.map_cons, List.foldl_cons, ih, joinChunks]
    simp [Response.step, Response.write, String.append_assoc, writeHeader_body]

theorem foldl_writes_status_some (ws : List String) (w : Response) (c : Nat)
    (h : w.status = some c) :
    ((ws.map Event.write).foldl Response.step w).status = some c := by
  induction ws generalizing w with
  | nil => simpa using h
  | cons x xs ih =>
    simp only [List.map_cons, List.foldl_cons]
    apply ih
    simp [Response.step, Response.write, Response.writeHeader, h]

theorem foldl_writes_status_none (ws : List String) (w : Response)
    (h : w.status = none) (hne : ws ≠ []) :
    ((ws.map Event.write).foldl Response.step w).status = some 200 := by
  cases ws with
  | nil => exact absurd rfl hne
  | cons x xs =>
    simp only [List.map_cons, List.foldl_cons]
    apply foldl_writes_status_some
    simp [Response.step, Response.write, Response.writeHeader, h]

theorem foldl_writes_code (ws : List String) (w : Response) :
    ((ws.map Event.write).foldl Response.step w).code = w.code := by
  induction ws generalizing w with
  | nil => rfl
  | cons x xs ih =>
    simp only [List.map_cons, List.foldl_cons, ih]
    cases hs : w.status <;>
      simp [Response.step, Response.write, Response.writeHeader, Response.code, hs]

theorem foldl_writes_headers (ws : List String) (w : Response) :
    ((ws.map Event.write).foldl Response.step w).headers = w.headers := by
  induction ws generalizing w with
  | nil => rfl
  | cons x xs ih =>
    simp only [List.map_cons, List.foldl_cons, ih]
    cases hs : w.status <;>
      simp [Response.step, Response.write, Response.writeHeader, Response.headers, hs]

theorem step_of_not_write (w : Response) (ev : Event) (h : ev.isResponseWrite = false) :
    w.step ev = w := by
  cases ev <;> simp_all [Response.step, Event.isResponseWrite]

/-- The response after a handler's encode step succeeded: the encoder's chunks
are appended to the body; status and headers are those in force before. -/
theorem response_finishEncode_ok (pre : List Event) (call : Event) (o : EncodeOutcome)
    (hcall : call.isResponseWrite = false) (ho : o.err = none) :
    (finishEncode pre call o).exit = Exit.returned ∧
    (finishEncode pre call o).events = pre ++ call :: o.written.map Event.write ∧
    (response (finishEncode pre call o).events).code = (response pre).code ∧
    (response (finishEncode pre call o).events).headers = (response pre).headers ∧
    (response (finishEncode pre call o).events).body
      = (response pre).body ++ joinChunks o.written := by
  simp only [finishEncode, ho, encodeEvents, response_append, List.foldl_cons,
    step_of_not_write _ _ hcall, foldl_writes_code, foldl_writes_headers,
    foldl_writes_body, and_self]

/-- The response after the error tail when nothing was written before it:
status 500, plain-text content type, body the message. -/
theorem response_fail500_fresh (pre : List Event) (e : String)
    (h : (response pre).status = none) :
    (response (fail500 pre e).events).status = some 500 ∧
    (response (fail500 pre e).events).body = (response pre).body ++ (e ++ "\n") ∧
    getHeader (response (fail500 pre e).events).headers "Content-Type"
      = some "text/plain; charset=utf-8" := by
  simp [fail500, response_append, Response.step, Response.error, Response.write,
    Response.writeHeader, h, setHeader, getHeader, Response.headers]

/-- The response after the error tail when the status line was already
written: the status stands, the message is appended to the body. -/
theorem response_fail500_started (pre : List Event) (e : String) (c : Nat)
    (h : (response pre).status = some c) :
    (response (fail500 pre e).events).status = some c ∧
    (response (fail500 pre e).events).body = (response pre).body ++ (e ++ "\n") ∧
    (response (fail500 pre e).events).headers = (response pre).headers := by
  simp [fail500, response_append, Response.step, Response.error, Response.write,
    Response.writeHeader, h, Response.headers]

/-- The response after a handler's encode step failed, when nothing was
written before the encoder ran: the error tail yields status 500 only if the
encoder wrote nothing; otherwise the status 200 sent with the encoder's first
write stands and the message follows the chunks already written. -/
theorem response_finishEncode_err (pre : List Event) (call : Event) (o : EncodeOutcome)
    (e : String) (hcall : call.isResponseWrite = false) (ho : o.err = some e)
    (hpre : (response pre).status = none) :
    finishEncode pre call o = fail500 (pre ++ call :: o.written.map Event.write) e ∧
    (o.written = [] →
      (response (finishEncode pre call o).events).status = some 500 ∧
      (response (finishEncode pre call o).events).body = (response pre).body ++ (e ++ "\n")) ∧
    (o.written ≠ [] →
      (response (finishEncode pre call o).events).status = some 200 ∧
      (response (finishEncode pre call o).events).body
        = (response pre).body ++ joinChunks o.written ++ (e ++ "\n")) := by
  have hrun : finishEncode pre call o = fail500 (pre ++ call :: o.written.map Event.write) e := by
    simp [finishEncode, ho, encodeEvents]
  refine ⟨hrun, ?_, ?_⟩
  · intro hw
    have hst : (response (pre ++ call :: o.written.map Event.write)).status = none := by
      simp [hw, response_append, step_of_not_write _ _ hcall, hpre]
    have hb : (response (pre ++ call :: o.written.map Event.write)).body = (response pre).body := by
      simp [hw, response_append, step_of_not_write _ _ hcall]
    have h := response_fail500_fresh _ e hst
    rw [hrun]
    exact ⟨h.1, by rw [h.2.1, hb]⟩
  · intro hw
    have hst : (response (pre ++ call :: o.written.map Event.write)).status = some 200 := by
      rw [response_append, List.foldl_cons, step_of_not_write _ _ hcall]
      exact foldl_writes_status_none _ _ hpre hw
    have hb : (response (pre ++ call :: o.written.map Event.write)).body
        = (response pre).body ++ joinChunks o.written := by
      rw [response_append, List.foldl_cons, step_of_not_write _ _ hcall, foldl_writes_body]
    have h := response_fail500_started _ e 200 hst
    rw [hrun]
    exact ⟨h.1, by rw [h.2.1, hb]⟩

/-! ## `httpInfoRefs` -/

theorem recognized_false_iff (service : String) :
    recognized service = false ↔
      service ≠ "git-upload-pack" ∧ service ≠ "git-receive-pack" := by
  simp [recognized]

/-- The run of `httpInfoRefs` on an unrecognized service value, when the
endpoint resolves. -/
theorem httpInfoRefs_unrecognized_run (env : Env) (r : Request) (ep : Endpoint)
    (hs : recognized (r.queryGet "service") = false)
    (hep : env.newEndpoint gitpath = .ok ep) :
    httpInfoRefs env r =
      ⟨[Event.log (r.method ++ " " ++ r.path),
        Event.headerSet "Content-Type"
          ("application/x-" ++ r.queryGet "service" ++ "-advertisement"),
        Event.newEndpoint gitpath,
        Event.httpError "service type not recognized" 400,
        Event.advertisedReferences none r.ctx], Exit.panicked⟩ := by
  obtain ⟨h1, h2⟩ := (recognized_false_iff _).1 hs
  simp [httpInfoRefs, hep, openAdvertiser, h1, h2, logger]

/-- Claim C1: for a request to `/info/refs` whose `service` value is not one of
the recognized names, when endpoint resolution succeeds, `httpInfoRefs` calls
`http.Error` with "service type not recognized" and status 400; the response
writer then has status 400, the plain-text content type and that message as
its body. -/
theorem httpInfoRefs_unrecognized_400 (env : Env) (r : Request) (ep : Endpoint)
    (hs : recognized (r.queryGet "service") = false)
    (hep : env.newEndpoint gitpath = .ok ep) :
    Event.httpError "service type not recognized" 400 ∈ (httpInfoRefs env r).events ∧
    (response (httpInfoRefs env r).events).status = some 400 ∧
    (response (httpInfoRefs env r).events).body = "service type not recognized\n" ∧
    getHeader (response (httpInfoRefs env r).events).headers "Content-Type"
      = some "text/plain; charset=utf-8" := by
  rw [httpInfoRefs_unrecognized_run env r ep hs hep]
  refine ⟨by simp, ?_, ?_, ?_⟩ <;>
    simp [response, Response.step, Response.error, Response.write, Response.writeHeader,
      Response.empty, setHeader, getHeader, Response.headers]

/-- Claim C1 at a concrete input: `GET /info/refs?service=bogus`. -/
theorem httpInfoRefs_unrecognized_400_witness :
    recognized ((getRequest "/info/refs" [("service", "bogus")]).queryGet "service") = false ∧
    okEnv.newEndpoint gitpath = .ok ⟨gitpath⟩ ∧
    (response (httpInfoRefs okEnv
      (getRequest "/info/refs" [("service", "bogus")])).events).status = some 400 :=
  ⟨by decide, rfl,
    (httpInfoRefs_unrecognized_400 okEnv (getRequest "/info/refs" [("service", "bogus")])
      ⟨gitpath⟩ (by decide) rfl).2.1⟩

/-- The run of `httpInfoRefs` on a recognized service value, when the endpoint
resolves, the session opens and the session returns its advertisement. -/
theorem httpInfoRefs_recognized_run (env : Env) (r : Request) (ep : Endpoint)
    (s : Session) (ar : AdvRefs)
    (hs : recognized (r.queryGet "service") = true)
    (hep : env.newEndpoint gitpath = .ok ep)
    (hopen : (if r.queryGet "service" = "git-upload-pack" then env.newUploadPackSession ep
      else env.newReceivePackSession ep) = .ok s)
    (har : env.advertisedReferences s r.ctx = .ok ar) :
    httpInfoRefs env r =
      finishEncode
        [Event.log (r.method ++ " " ++ r.path),
         Event.headerSet "Content-Type"
           ("application/x-" ++ r.queryGet "service" ++ "-advertisement"),
         Event.newEndpoint gitpath,
         (if r.queryGet "service" = "git-upload-pack" then Event.newUploadPackSession ep
          else Event.newReceivePackSession ep),
         Event.advertisedReferences (some s) r.ctx]
        (Event.encodeAdvRefs (setPrefix ar (r.queryGet "service")))
        (env.encodeAdvRefs (setPrefix ar (r.queryGet "service"))) := by
  by_cases h : r.queryGet "service" = "git-upload-pack"
  · simp only [h, if_true] at hopen ⊢
    simp [httpInfoRefs, hep, openAdvertiser, h, hopen, har, logger]
  · have h2 : r.queryGet "service" = "git-receive-pack" := by
      simpa [recognized, h] using hs
    simp only [h, if_false] at hopen ⊢
    simp [httpInfoRefs, hep, openAdvertiser, h2, hopen, har, logger]

/-- Claim C2: evaluation of `httpInfoRefs` at `GET /info/refs?service=bogus`
with resolving collaborators.  After the 400 response the handler does not
stop: it calls the advertised-references operation on the nil session and the
handler ends in a panic instead of returning. -/
theorem httpInfoRefs_bogus_calls_nil_session :
    httpInfoRefs okEnv (getRequest "/info/refs" [("service", "bogus")]) =
      ⟨[Event.log "GET /info/refs",
        Event.headerSet "Content-Type" "application/x-bogus-advertisement",
        Event.newEndpoint "/tmp/usertest/test.git",
        Event.httpError "service type not recognized" 400,
        Event.advertisedReferences none ⟨7⟩], Exit.panicked⟩ := by
  decide

/-- Claim C3, as stated, fails at `GET /info/refs?service=upload-pack` with
collaborators that all succeed: the value `upload-pack` is not recognized; the
response has status 400, its content type is not
`application/x-upload-pack-advertisement`, no session is opened and nothing
is encoded. -/
theorem httpInfoRefs_upload_pack_rejected :
    (response (httpInfoRefs okEnv
      (getRequest "/info/refs" [("service", "upload-pack")])).events).code = 400 ∧
    getHeader (response (httpInfoRefs okEnv
      (getRequest "/info/refs" [("service", "upload-pack")])).events).headers "Content-Type"
      ≠ some "application/x-upload-pack-advertisement" ∧
    (response (httpInfoRefs okEnv
      (getRequest "/info/refs" [("service", "upload-pack")])).events).body
      = "service type not recognized\n" ∧
    (httpInfoRefs okEnv (getRequest "/info/refs" [("service", "upload-pack")])).events.all
      (fun ev => !ev.isSessionOpen && ev != Event.encodeAdvRefs
        (setPrefix sampleAdvRefs "upload-pack")) = true := by
  decide

/-- The response of `httpInfoRefs` on a recognized service value when every
step succeeds. -/
theorem httpInfoRefs_recognized_response (env : Env) (r : Request) (ep : Endpoint)
    (s : Session) (ar : AdvRefs)
    (hs : recognized (r.queryGet "service") = true)
    (hep : env.newEndpoint gitpath = .ok ep)
    (hopen : (if r.queryGet "service" = "git-upload-pack" then env.newUploadPackSession ep
      else env.newReceivePackSession ep) = .ok s)
    (har : env.advertisedReferences s r.ctx = .ok ar)
    (henc : (env.encodeAdvRefs (setPrefix ar (r.queryGet "service"))).err = none) :
    (httpInfoRefs env r).exit = Exit.returned ∧
    (∀ ev ∈ (httpInfoRefs env r).events, ev.isErrorResponse = false) ∧
    (response (httpInfoRefs env r).events).code = 200 ∧
    getHeader (response (httpInfoRefs env r).events).headers "Content-Type"
      = some ("application/x-" ++ r.queryGet "service" ++ "-advertisement") ∧
    (response (httpInfoRefs env r).events).body
      = joinChunks (env.encodeAdvRefs (setPrefix ar (r.queryGet "service"))).written ∧
    (if r.queryGet "service" = "git-upload-pack" then Event.newUploadPackSession ep
      else Event.newReceivePackSession ep) ∈ (httpInfoRefs env r).events ∧
    Event.advertisedReferences (some s) r.ctx ∈ (httpInfoRefs env r).events := by
  rw [httpInfoRefs_recognized_run env r ep s ar hs hep hopen har]
  obtain ⟨h1, h2, h3, h4, h5⟩ := response_finishEncode_ok
    [Event.log (r.method ++ " " ++ r.path),
     Event.headerSet "Content-Type"
       ("application/x-" ++ r.queryGet "service" ++ "-advertisement"),
     Event.newEndpoint gitpath,
     (if r.queryGet "service" = "git-upload-pack" then Event.newUploadPackSession ep
      else Event.newReceivePackSession ep),
     Event.advertisedReferences (some s) r.ctx]
    (Event.encodeAdvRefs (setPrefix ar (r.queryGet "service")))
    (env.encodeAdvRefs (setPrefix ar (r.queryGet "service"))) rfl henc
  refine ⟨h1, ?_, ?_, ?_, ?_, ?_, ?_⟩
  · rw [h2]
    intro ev hev
    simp only [List.mem_append, List.mem_cons, List.mem_map, List.mem_singleton,
      List.not_mem_nil, or_false] at hev
    rcases hev with (h | h | h | h | h) | h | ⟨c, _, h⟩
    · subst h; rfl
    · subst h; rfl
    · subst h; rfl
    · subst h; split <;> rfl
    · subst h; rfl
    · subst h; rfl
    · subst h; rfl
  · rw [h3]
    split <;> simp [response, Response.step, Response.empty, Response.code]
  · rw [h4]
    split <;> simp [response, Response.step, Response.empty, Response.headers, setHeader,
      getHeader]
  · rw [h5]
    split <;> simp [response, Response.step, Response.empty]
  · rw [h2]; simp
  · rw [h2]; simp

/-- Claim C3, amended: for `service=git-upload-pack` (and likewise
`service=git-receive-pack`), when endpoint resolution, session creation,
reference retrieval and encoding all succeed, `httpInfoRefs` returns with no
error response, status 200, content type
`application/x-git-upload-pack-advertisement` (resp.
`application/x-git-receive-pack-advertisement`), and a body that is the
encoding of the advertisement of the upload-pack (resp. receive-pack) session
it opened. -/
theorem httpInfoRefs_git_service_advertises (env : Env) (r : Request) (ep : Endpoint)
    (s : Session) (ar : AdvRefs)
    (hep : env.newEndpoint gitpath = .ok ep)
    (har : env.advertisedReferences s r.ctx = .ok ar) :
    (r.queryGet "service" = "git-upload-pack" →
      env.newUploadPackSession ep = .ok s →
      (env.encodeAdvRefs (setPrefix ar "git-upload-pack")).err = none →
        (httpInfoRefs env r).exit = Exit.returned ∧
        (∀ ev ∈ (httpInfoRefs env r).events, ev.isErrorResponse = false) ∧
        (response (httpInfoRefs env r).events).code = 200 ∧
        getHeader (response (httpInfoRefs env r).events).headers "Content-Type"
          = some "application/x-git-upload-pack-advertisement" ∧
        (response (httpInfoRefs env r).events).body
          = joinChunks (env.encodeAdvRefs (setPrefix ar "git-upload-pack")).written ∧
        Event.newUploadPackSession ep ∈ (httpInfoRefs env r).events ∧
        Event.advertisedReferences (some s) r.ctx ∈ (httpInfoRefs env r).events) ∧
    (r.queryGet "service" = "git-receive-pack" →
      env.newReceivePackSession ep = .ok s →
      (env.encodeAdvRefs (setPrefix ar "git-receive-pack")).err = none →
        (httpInfoRefs env r).exit = Exit.returned ∧
        (∀ ev ∈ (httpInfoRefs env r).events, ev.isErrorResponse = false) ∧
        (response (httpInfoRefs env r).events).code = 200 ∧
        getHeader (response (httpInfoRefs env r).events).headers "Content-Type"
          = some "application/x-git-receive-pack-advertisement" ∧
        (response (httpInfoRefs env r).events).body
          = joinChunks (env.encodeAdvRefs (setPrefix ar "git-receive-pack")).written ∧
        Event.newReceivePackSession ep ∈ (httpInfoRefs env r).events ∧
        Event.advertisedReferences (some s) r.ctx ∈ (httpInfoRefs env r).events) := by
  constructor
  · intro hsvc hopen henc
    have h := httpInfoRefs_recognized_response env r ep s ar (by simp [recognized, hsvc]) hep
      (by simpa [hsvc] using hopen) har (by simpa [hsvc] using henc)
    simpa [hsvc] using h
  · intro hsvc hopen henc
    have h := httpInfoRefs_recognized_response env r ep s ar (by simp [recognized, hsvc]) hep
      (by simpa [hsvc] using hopen) har (by simpa [hsvc] using henc)
    simpa [hsvc] using h

/-- Claim C3, amended, at a concrete input:
`GET /info/refs?service=git-upload-pack` with collaborators that all succeed. -/
theorem httpInfoRefs_git_service_advertises_witness :
    (response (httpInfoRefs okEnv
      (getRequest "/info/refs" [("service", "git-upload-pack")])).events).code = 200 ∧
    getHeader (response (httpInfoRefs okEnv
      (getRequest "/info/refs" [("service", "git-upload-pack")])).events).headers
      "Content-Type" = some "application/x-git-upload-pack-advertisement" ∧
    (response (httpInfoRefs okEnv
      (getRequest "/info/refs" [("service", "git-upload-pack")])).events).body
      = "# service=git-upload-packrefs/heads/main" :=
  have h := (httpInfoRefs_git_service_advertises okEnv
    (getRequest "/info/refs" [("service", "git-upload-pack")]) ⟨gitpath⟩ ⟨1⟩ sampleAdvRefs
    rfl rfl).1 (by decide) rfl rfl
  ⟨h.2.2.1, h.2.2.2.1, h.2.2.2.2.1.trans (by decide)⟩

/-- Claim C4: for every recognized service value and every advertisement `ar`
the session returns, `httpInfoRefs` calls the encoder exactly once, on an
advertisement whose prefix is the two entries `# service=<service>` and the
flush marker (the empty payload), in this order, whatever `ar.Prefix` was; the
other fields are those of `ar`. -/
theorem httpInfoRefs_prefix (env : Env) (r : Request) (ep : Endpoint)
    (s : Session) (ar : AdvRefs)
    (hs : recognized (r.queryGet "service") = true)
    (hep : env.newEndpoint gitpath = .ok ep)
    (hopen : (if r.queryGet "service" = "git-upload-pack" then env.newUploadPackSession ep
      else env.newReceivePackSession ep) = .ok s)
    (har : env.advertisedReferences s r.ctx = .ok ar) :
    ∃ ar1 : AdvRefs,
      Event.encodeAdvRefs ar1 ∈ (httpInfoRefs env r).events ∧
      (∀ a, Event.encodeAdvRefs a ∈ (httpInfoRefs env r).events → a = ar1) ∧
      ar1.Prefix = ["# service=" ++ r.queryGet "service", ""] ∧
      ar1.Head = ar.Head ∧ ar1.Capabilities = ar.Capabilities ∧
      ar1.References = ar.References ∧ ar1.Peeled = ar.Peeled ∧
      ar1.Shallows = ar.Shallows := by
  refine ⟨setPrefix ar (r.queryGet "service"), ?_, ?_, rfl, rfl, rfl, rfl, rfl, rfl⟩
  · rw [httpInfoRefs_recognized_run env r ep s ar hs hep hopen har]
    cases henc : (env.encodeAdvRefs (setPrefix ar (r.queryGet "service"))).err <;>
      simp [finishEncode, henc, fail500, encodeEvents]
  · intro a
    rw [httpInfoRefs_recognized_run env r ep s ar hs hep hopen har]
    cases henc : (env.encodeAdvRefs (setPrefix ar (r.queryGet "service"))).err <;>
      (simp only [finishEncode, henc, fail500, encodeEvents]; split <;> simp)

/-- Claim C4 at a concrete input: `service=git-receive-pack`, for an
advertisement that arrives with another prefix. -/
theorem httpInfoRefs_prefix_witness :
    sampleAdvRefs.Prefix = ["stale"] ∧
    ∃ ar1 : AdvRefs,
      Event.encodeAdvRefs ar1 ∈ (httpInfoRefs okEnv
        (getRequest "/info/refs" [("service", "git-receive-pack")])).events ∧
      ar1.Prefix = ["# service=git-receive-pack", ""] :=
  have h := httpInfoRefs_prefix okEnv
    (getRequest "/info/refs" [("service", "git-receive-pack")]) ⟨gitpath⟩ ⟨2⟩ sampleAdvRefs
    (by decide) rfl rfl rfl
  ⟨rfl, h.elim (fun a ha => ⟨a, ha.1, ha.2.2.1.trans (by decide)⟩)⟩

/-! ## `httpGitUploadPack` and `httpGitReceivePack` -/

/-- Claim C5, as stated, fails on the encode step: when the upload-pack
encoder fails after writing `0008NAK`, the status of the response is 200, not
500, and its body is not the error message alone. -/
theorem httpGitUploadPack_encode_failure_not_500 :
    (response (httpGitUploadPack brokenPackEnv
      (postRequest "/git-upload-pack" "0032want")).events).status = some 200 ∧
    (response (httpGitUploadPack brokenPackEnv
      (postRequest "/git-upload-pack" "0032want")).events).body
      = "0008NAK\npack stream broken\n" ∧
    Event.httpError "pack stream broken" 500 ∈ (httpGitUploadPack brokenPackEnv
      (postRequest "/git-upload-pack" "0032want")).events := by
  decide

/-- Claim C5, amended: in `httpGitUploadPack` and `httpGitReceivePack` the steps
decode body, resolve endpoint, open session, run the delegated operation,
encode result run in that order and the first failing step short-circuits: the
handler calls `http.Error` with status 500 and that step's error message, logs
it and returns, and no later step is invoked.  When the failing step is decode,
resolve, open or the delegated operation, or an encode that wrote nothing, the
response is HTTP 500 whose body is that message.  When the encoder fails after
it has written part of the result, the status 200 sent with its first write
stands and the message is appended to what was written. -/
theorem pack_handlers_short_circuit (env : Env) (r : Request) :
    ((∀ e, env.decodeUploadPackRequest r.body = .error e →
        httpGitUploadPack env r = ⟨[Event.log (r.method ++ " " ++ r.path),
          Event.headerSet "Content-Type" "application/x-git-upload-pack-result",
          Event.decodeUploadPackRequest r.body,
          Event.httpError e 500, Event.log e], Exit.returned⟩ ∧
        (response (httpGitUploadPack env r).events).status = some 500 ∧
        (response (httpGitUploadPack env r).events).body = e ++ "\n") ∧
     (∀ upr e, env.decodeUploadPackRequest r.body = .ok upr → env.newEndpoint gitpath = .error e →
        httpGitUploadPack env r = ⟨[Event.log (r.method ++ " " ++ r.path),
          Event.headerSet "Content-Type" "application/x-git-upload-pack-result",
          Event.decodeUploadPackRequest r.body,
          Event.newEndpoint gitpath,
          Event.httpError e 500, Event.log e], Exit.returned⟩ ∧
        (response (httpGitUploadPack env r).events).status = some 500 ∧
        (response (httpGitUploadPack env r).events).body = e ++ "\n") ∧
     (∀ upr ep e, env.decodeUploadPackRequest r.body = .ok upr → env.newEndpoint gitpath = .ok ep →
        env.newUploadPackSession ep = .error e →
        httpGitUploadPack env r = ⟨[Event.log (r.method ++ " " ++ r.path),
          Event.headerSet "Content-Type" "application/x-git-upload-pack-result",
          Event.decodeUploadPackRequest r.body,
          Event.newEndpoint gitpath,
          Event.newUploadPackSession ep,
          Event.httpError e 500, Event.log e], Exit.returned⟩ ∧
        (response (httpGitUploadPack env r).events).status = some 500 ∧
        (response (httpGitUploadPack env r).events).body = e ++ "\n") ∧
     (∀ upr ep sess e, env.decodeUploadPackRequest r.body = .ok upr → env.newEndpoint gitpath = .ok ep →
        env.newUploadPackSession ep = .ok sess → env.uploadPack sess r.ctx upr = .error e →
        httpGitUploadPack env r = ⟨[Event.log (r.method ++ " " ++ r.path),
          Event.headerSet "Content-Type" "application/x-git-upload-pack-result",
          Event.decodeUploadPackRequest r.body,
          Event.newEndpoint gitpath,
          Event.newUploadPackSession ep,
          Event.uploadPack sess r.ctx upr,
          Event.httpError e 500, Event.log e], Exit.returned⟩ ∧
        (response (httpGitUploadPack env r).events).status = some 500 ∧
        (response (httpGitUploadPack env r).events).body = e ++ "\n") ∧
     (∀ upr ep sess res e, env.decodeUploadPackRequest r.body = .ok upr → env.newEndpoint gitpath = .ok ep →
        env.newUploadPackSession ep = .ok sess → env.uploadPack sess r.ctx upr = .ok res →
        (env.encodeUploadPackResponse res).err = some e →
        httpGitUploadPack env r = ⟨[Event.log (r.method ++ " " ++ r.path),
          Event.headerSet "Content-Type" "application/x-git-upload-pack-result",
          Event.decodeUploadPackRequest r.body,
          Event.newEndpoint gitpath,
          Event.newUploadPackSession ep,
          Event.uploadPack sess r.ctx upr,
          Event.encodeUploadPackResponse res] ++ (env.encodeUploadPackResponse res).written.map Event.write ++
          [Event.httpError e 500, Event.log e], Exit.returned⟩ ∧
        ((env.encodeUploadPackResponse res).written = [] →
          (response (httpGitUploadPack env r).events).status = some 500 ∧
          (response (httpGitUploadPack env r).events).body = e ++ "\n") ∧
        ((env.encodeUploadPackResponse res).written ≠ [] →
          (response (httpGitUploadPack env r).events).status = some 200 ∧
          (response (httpGitUploadPack env r).events).body
            = joinChunks (env.encodeUploadPackResponse res).written ++ (e ++ "\n")))) ∧
    ((∀ e, env.decodeReferenceUpdateRequest r.body = .error e →
        httpGitReceivePack env r = ⟨[Event.log (r.method ++ " " ++ r.path),
          Event.headerSet "Content-Type" "application/x-git-receive-pack-result",
          Event.decodeReferenceUpdateRequest r.body,
          Event.httpError e 500, Event.log e], Exit.returned⟩ ∧
        (response (httpGitReceivePack env r).events).status = some 500 ∧
        (response (httpGitReceivePack env r).events).body = e ++ "\n") ∧
     (∀ rer e, env.decodeReferenceUpdateRequest r.body = .ok rer → env.newEndpoint gitpath = .error e →
        httpGitReceivePack env r = ⟨[Event.log (r.method ++ " " ++ r.path),
          Event.headerSet "Content-Type" "application/x-git-receive-pack-result",
          Event.decodeReferenceUpdateRequest r.body,
          Event.newEndpoint gitpath,
          Event.httpError e 500, Event.log e], Exit.returned⟩ ∧
        (response (httpGitReceivePack env r).events).status = some 500 ∧
        (response (httpGitReceivePack env r).events).body = e ++ "\n") ∧
     (∀ rer ep e, env.decodeReferenceUpdateRequest r.body = .ok rer → env.newEndpoint gitpath = .ok ep →
        env.newReceivePackSession ep = .error e →
        httpGitReceivePack env r = ⟨[Event.log (r.method ++ " " ++ r.path),
          Event.headerSet "Content-Type" "application/x-git-receive-pack-result",
          Event.decodeReferenceUpdateRequest r.body,
          Event.newEndpoint gitpath,
          Event.newReceivePackSession ep,
          Event.httpError e 500, Event.log e], Exit.returned⟩ ∧
        (response (httpGitReceivePack env r).events).status = some 500 ∧
        (response (httpGitReceivePack env r).events).body = e ++ "\n") ∧
     (∀ rer ep sess e, env.decodeReferenceUpdateRequest r.body = .ok rer → env.newEndpoint gitpath = .ok ep →
        env.newReceivePackSession ep = .ok sess → env.receivePack sess r.ctx rer = .error e →
        httpGitReceivePack env r = ⟨[Event.log (r.method ++ " " ++ r.path),
          Event.headerSet "Content-Type" "application/x-git-receive-pack-result",
          Event.decodeReferenceUpdateRequest r.body,
          Event.newEndpoint gitpath,
          Event.newReceivePackSession ep,
          Event.receivePack sess r.ctx rer,
          Event.httpError e 500, Event.log e], Exit.returned⟩ ∧
        (response (httpGitReceivePack env r).events).status = some 500 ∧
        (response (httpGitReceivePack env r).events).body = e ++ "\n") ∧
     (∀ rer ep sess res e, env.decodeReferenceUpdateRequest r.body = .ok rer → env.newEndpoint gitpath = .ok ep →
        env.newReceivePackSession ep = .ok sess → env.receivePack sess r.ctx rer = .ok res →
        (env.encodeReportStatus res).err = some e →
        httpGitReceivePack env r = ⟨[Event.log (r.method ++ " " ++ r.path),
          Event.headerSet "Content-Type" "application/x-git-receive-pack-result",
          Event.decodeReferenceUpdateRequest r.body,
          Event.newEndpoint gitpath,
          Event.newReceivePackSession ep,
          Event.receivePack sess r.ctx rer,
          Event.encodeReportStatus res] ++ (env.encodeReportStatus res).written.map Event.write ++
          [Event.httpError e 500, Event.log e], Exit.returned⟩ ∧
        ((env.encodeReportStatus res).written = [] →
          (response (httpGitReceivePack env r).events).status = some 500 ∧
          (response (httpGitReceivePack env r).events).body = e ++ "\n") ∧
        ((env.encodeReportStatus res).written ≠ [] →
          (response (httpGitReceivePack env r).events).status = some 200 ∧
          (response (httpGitReceivePack env r).events).body
            = joinChunks (env.encodeReportStatus res).written ++ (e ++ "\n")))) := by
  refine ⟨?_, ?_⟩
  · refine ⟨?_, ?_, ?_, ?_, ?_⟩
    · intro e h1
      simp [httpGitUploadPack, h1, fail500, logger, response, Response.step, Response.error,
        Response.write, Response.writeHeader, Response.empty]
    · intro q e h1 h2
      simp [httpGitUploadPack, h1, h2, fail500, logger, response, Response.step, Response.error,
        Response.write, Response.writeHeader, Response.empty]
    · intro q ep e h1 h2 h3
      simp [httpGitUploadPack, h1, h2, h3, fail500, logger, response, Response.step, Response.error,
        Response.write, Response.writeHeader, Response.empty]
    · intro q ep sess e h1 h2 h3 h4
      simp [httpGitUploadPack, h1, h2, h3, h4, fail500, logger, response, Response.step, Response.error,
        Response.write, Response.writeHeader, Response.empty]
    · intro q ep sess res e h1 h2 h3 h4 h5
      have hrun : httpGitUploadPack env r = finishEncode
          (logger r ++ [Event.headerSet "Content-Type" "application/x-git-upload-pack-result"] ++
          [Event.decodeUploadPackRequest r.body] ++ [Event.newEndpoint gitpath] ++ [Event.newUploadPackSession ep] ++
          [Event.uploadPack sess r.ctx q])
          (Event.encodeUploadPackResponse res) (env.encodeUploadPackResponse res) := by
        simp only [httpGitUploadPack, h1, h2, h3, h4]
      obtain ⟨k1, k2, k3⟩ := response_finishEncode_err
        (logger r ++ [Event.headerSet "Content-Type" "application/x-git-upload-pack-result"] ++
          [Event.decodeUploadPackRequest r.body] ++ [Event.newEndpoint gitpath] ++ [Event.newUploadPackSession ep] ++
          [Event.uploadPack sess r.ctx q])
        (Event.encodeUploadPackResponse res) (env.encodeUploadPackResponse res) e rfl h5
        (by simp [logger, response, Response.step, Response.empty])
      rw [hrun]
      refine ⟨?_, ?_, ?_⟩
      · rw [k1]; simp [fail500, logger]
      · intro hw
        have := k2 hw
        simpa [logger, response, Response.step, Response.empty] using this
      · intro hw
        have := k3 hw
        simpa [logger, response, Response.step, Response.empty] using this
  · refine ⟨?_, ?_, ?_, ?_, ?_⟩
    · intro e h1
      simp [httpGitReceivePack, h1, fail500, logger, response, Response.step, Response.error,
        Response.write, Response.writeHeader, Response.empty]
    · intro q e h1 h2
      simp [httpGitReceivePack, h1, h2, fail500, logger, response, Response.step, Response.error,
        Response.write, Response.writeHeader, Response.empty]
    · intro q ep e h1 h2 h3
      simp [httpGitReceivePack, h1, h2, h3, fail500, logger, response, Response.step, Response.error,
        Response.write, Response.writeHeader, Response.empty]
    · intro q ep sess e h1 h2 h3 h4
      simp [httpGitReceivePack, h1, h2, h3, h4, fail500, logger, response, Response.step, Response.error,
        Response.write, Response.writeHeader, Response.empty]
    · intro q ep sess res e h1 h2 h3 h4 h5
      have hrun : httpGitReceivePack env r = finishEncode
          (logger r ++ [Event.headerSet "Content-Type" "application/x-git-receive-pack-result"] ++
          [Event.decodeReferenceUpdateRequest r.body] ++ [Event.newEndpoint gitpath] ++ [Event.newReceivePackSession ep] ++
          [Event.receivePack sess r.ctx q])
          (Event.encodeReportStatus res) (env.encodeReportStatus res) := by
        simp only [httpGitReceivePack, h1, h2, h3, h4]
      obtain ⟨k1, k2, k3⟩ := response_finishEncode_err
        (logger r ++ [Event.headerSet "Content-Type" "application/x-git-receive-pack-result"] ++
          [Event.decodeReferenceUpdateRequest r.body] ++ [Event.newEndpoint gitpath] ++ [Event.newReceivePackSession ep] ++
          [Event.receivePack sess r.ctx q])
        (Event.encodeReportStatus res) (env.encodeReportStatus res) e rfl h5
        (by simp [logger, response, Response.step, Response.empty])
      rw [hrun]
      refine ⟨?_, ?_, ?_⟩
      · rw [k1]; simp [fail500, logger]
      · intro hw
        have := k2 hw
        simpa [logger, response, Response.step, Response.empty] using this
      · intro hw
        have := k3 hw
        simpa [logger, response, Response.step, Response.empty] using this

/-- Claim C5, amended, at a concrete input: a body that fails to decode,
posted to `/git-upload-pack`. -/
theorem pack_handlers_short_circuit_witness :
    badBodyEnv.decodeUploadPackRequest (postRequest "/git-upload-pack" "zzzz").body
      = .error "invalid pkt-len found" ∧
    httpGitUploadPack badBodyEnv (postRequest "/git-upload-pack" "zzzz") =
      ⟨[Event.log "POST /git-upload-pack",
        Event.headerSet "Content-Type" "application/x-git-upload-pack-result",
        Event.decodeUploadPackRequest "zzzz",
        Event.httpError "invalid pkt-len found" 500,
        Event.log "invalid pkt-len found"], Exit.returned⟩ ∧
    (response (httpGitUploadPack badBodyEnv
      (postRequest "/git-upload-pack" "zzzz")).events).status = some 500 :=
  have h := (pack_handlers_short_circuit badBodyEnv
    (postRequest "/git-upload-pack" "zzzz")).1.1 "invalid pkt-len found" rfl
  ⟨rfl, h.1.trans (by decide), h.2.1⟩

/-- Claim C6: on every path where no step fails, the `Content-Type` header of
the response is `application/x-<service>-advertisement` for `httpInfoRefs`
(with `<service>` the recognized service value of the request),
`application/x-git-upload-pack-result` for `httpGitUploadPack` and
`application/x-git-receive-pack-result` for `httpGitReceivePack`. -/
theorem content_type_on_success (env : Env) (r : Request) :
    (∀ ep s ar, recognized (r.queryGet "service") = true →
      env.newEndpoint gitpath = .ok ep →
      (if r.queryGet "service" = "git-upload-pack" then env.newUploadPackSession ep
        else env.newReceivePackSession ep) = .ok s →
      env.advertisedReferences s r.ctx = .ok ar →
      (env.encodeAdvRefs (setPrefix ar (r.queryGet "service"))).err = none →
      getHeader (response (httpInfoRefs env r).events).headers "Content-Type"
        = some ("application/x-" ++ r.queryGet "service" ++ "-advertisement")) ∧
    (∀ upr ep sess res, env.decodeUploadPackRequest r.body = .ok upr →
      env.newEndpoint gitpath = .ok ep →
      env.newUploadPackSession ep = .ok sess →
      env.uploadPack sess r.ctx upr = .ok res →
      (env.encodeUploadPackResponse res).err = none →
      getHeader (response (httpGitUploadPack env r).events).headers "Content-Type"
        = some "application/x-git-upload-pack-result") ∧
    (∀ rer ep sess res, env.decodeReferenceUpdateRequest r.body = .ok rer →
      env.newEndpoint gitpath = .ok ep →
      env.newReceivePackSession ep = .ok sess →
      env.receivePack sess r.ctx rer = .ok res →
      (env.encodeReportStatus res).err = none →
      getHeader (response (httpGitReceivePack env r).events).headers "Content-Type"
        = some "application/x-git-receive-pack-result") := by
  refine ⟨?_, ?_, ?_⟩
  · intro ep s ar hs hep hopen har henc
    exact (httpInfoRefs_recognized_response env r ep s ar hs hep hopen har henc).2.2.2.1
  · intro upr ep sess res h1 h2 h3 h4 h5
    have hrun : httpGitUploadPack env r = finishEncode
        (logger r ++ [Event.headerSet "Content-Type" "application/x-git-upload-pack-result"] ++
          [Event.decodeUploadPackRequest r.body] ++ [Event.newEndpoint gitpath] ++
          [Event.newUploadPackSession ep] ++ [Event.uploadPack sess r.ctx upr])
        (Event.encodeUploadPackResponse res) (env.encodeUploadPackResponse res) := by
      simp only [httpGitUploadPack, h1, h2, h3, h4]
    rw [hrun, (response_finishEncode_ok _ (Event.encodeUploadPackResponse res) _ rfl h5).2.2.2.1]
    simp [logger, response, Response.step, Response.empty, Response.headers, setHeader,
      getHeader]
  · intro rer ep sess res h1 h2 h3 h4 h5
    have hrun : httpGitReceivePack env r = finishEncode
        (logger r ++ [Event.headerSet "Content-Type" "application/x-git-receive-pack-result"] ++
          [Event.decodeReferenceUpdateRequest r.body] ++ [Event.newEndpoint gitpath] ++
          [Event.newReceivePackSession ep] ++ [Event.receivePack sess r.ctx rer])
        (Event.encodeReportStatus res) (env.encodeReportStatus res) := by
      simp only [httpGitReceivePack, h1, h2, h3, h4]
    rw [hrun, (response_finishEncode_ok _ (Event.encodeReportStatus res) _ rfl h5).2.2.2.1]
    simp [logger, response, Response.step, Response.empty, Response.headers, setHeader,
      getHeader]

/-- Claim C6 at a concrete input: a push to `/git-receive-pack` with
collaborators that all succeed. -/
theorem content_type_on_success_witness :
    (okEnv.encodeReportStatus ⟨"ok", []⟩).err = none ∧
    getHeader (response (httpGitReceivePack okEnv
      (postRequest "/git-receive-pack" "0000")).events).headers "Content-Type"
      = some "application/x-git-receive-pack-result" :=
  ⟨rfl, (content_type_on_success okEnv (postRequest "/git-receive-pack" "0000")).2.2
    ⟨[("old", "new", "0000")]⟩ ⟨gitpath⟩ ⟨2⟩ ⟨"ok", []⟩ rfl rfl rfl rfl rfl⟩

/-! ## Routing -/

theorem queryGet_with_method (r : Request) (m k : String) :
    Request.queryGet { r with method := m } k = r.queryGet k := rfl

/-- Claim C7, as stated, fails: the handlers run whatever the method.  A `POST`
to `/info/refs` opens a session and encodes the advertisement; a `GET` to
`/git-upload-pack` and a `DELETE` to `/git-receive-pack` decode, open a
session and run the delegated operation. -/
theorem serve_runs_handlers_for_any_method :
    serve okEnv ⟨"POST", "/info/refs", [("service", "git-upload-pack")], "", ⟨7⟩⟩ =
      some ⟨[Event.log "POST /info/refs",
        Event.headerSet "Content-Type" "application/x-git-upload-pack-advertisement",
        Event.newEndpoint "/tmp/usertest/test.git",
        Event.newUploadPackSession ⟨"/tmp/usertest/test.git"⟩,
        Event.advertisedReferences (some ⟨1⟩) ⟨7⟩,
        Event.encodeAdvRefs (setPrefix sampleAdvRefs "git-upload-pack"),
        Event.write "# service=git-upload-pack",
        Event.write "",
        Event.write "refs/heads/main"], Exit.returned⟩ ∧
    serve okEnv ⟨"GET", "/git-upload-pack", [], "", ⟨7⟩⟩ =
      some ⟨[Event.log "GET /git-upload-pack",
        Event.headerSet "Content-Type" "application/x-git-upload-pack-result",
        Event.decodeUploadPackRequest "",
        Event.newEndpoint "/tmp/usertest/test.git",
        Event.newUploadPackSession ⟨"/tmp/usertest/test.git"⟩,
        Event.uploadPack ⟨1⟩ ⟨7⟩ ⟨[""], []⟩,
        Event.encodeUploadPackResponse ⟨[], "PACK"⟩,
        Event.write "0008NAK\n",
        Event.write "PACK"], Exit.returned⟩ ∧
    serve okEnv ⟨"DELETE", "/git-receive-pack", [], "", ⟨7⟩⟩ =
      some ⟨[Event.log "DELETE /git-receive-pack",
        Event.headerSet "Content-Type" "application/x-git-receive-pack-result",
        Event.decodeReferenceUpdateRequest "",
        Event.newEndpoint "/tmp/usertest/test.git",
        Event.newReceivePackSession ⟨"/tmp/usertest/test.git"⟩,
        Event.receivePack ⟨2⟩ ⟨7⟩ ⟨[("old", "new", "")]⟩,
        Event.encodeReportStatus ⟨"ok", []⟩,
        Event.write "unpack ok\n"], Exit.returned⟩ := by
  decide

theorem route_with_method (r : Request) (m : String) :
    route { r with method := m } = route r := rfl

/-- The route table as a function of the path. -/
theorem route_eq (r : Request) :
    route r =
      if r.path = "/info/refs" then some Handler.infoRefs
      else if r.path = "/git-upload-pack" then some Handler.gitUploadPack
      else if r.path = "/git-receive-pack" then some Handler.gitReceivePack
      else none := by
  by_cases h1 : r.path = "/info/refs"
  · simp [route, routes, List.find?, h1]
  · have e1 : ("/info/refs" == r.path) = false := by simpa using Ne.symm h1
    by_cases h2 : r.path = "/git-upload-pack"
    · simp [route, routes, List.find?, h2]
    · have e2 : ("/git-upload-pack" == r.path) = false := by simpa using Ne.symm h2
      by_cases h3 : r.path = "/git-receive-pack"
      · simp [route, routes, List.find?, h3]
      · have e3 : ("/git-receive-pack" == r.path) = false := by simpa using Ne.symm h3
        simp [route, routes, List.find?, h1, h2, h3, e1, e2, e3]

/-- A handler reads the method of a request only to log it: with another
method the run differs in its first event, the method/path log line. -/
theorem run_with_method (h : Handler) (env : Env) (r : Request) (m : String) :
    (h.run env r).events.head? = some (Event.log (r.method ++ " " ++ r.path)) ∧
    (h.run env { r with method := m }).events
      = Event.log (m ++ " " ++ r.path) :: (h.run env r).events.tail ∧
    (h.run env { r with method := m }).exit = (h.run env r).exit := by
  cases h
  · simp only [Handler.run, httpInfoRefs, logger, queryGet_with_method]
    cases env.newEndpoint gitpath with
    | error e => simp [fail500]
    | ok ep =>
      dsimp only
      rcases hop : openAdvertiser env (r.queryGet "service") ep with ⟨evs, _ | s, _ | e⟩
      · simp [hop]
      · simp [hop, fail500]
      · simp only [hop]
        cases env.advertisedReferences s r.ctx with
        | error e => simp [fail500]
        | ok ar =>
          dsimp only
          cases he : (env.encodeAdvRefs (setPrefix ar (r.queryGet "service"))).err <;>
            simp [finishEncode, fail500, he]
      · simp [hop, fail500]
  · simp only [Handler.run, httpGitUploadPack, logger]
    cases env.decodeUploadPackRequest r.body with
    | error e => simp [fail500]
    | ok upr =>
      dsimp only
      cases env.newEndpoint gitpath with
      | error e => simp [fail500]
      | ok ep =>
        dsimp only
        cases env.newUploadPackSession ep with
        | error e => simp [fail500]
        | ok sess =>
          dsimp only
          cases env.uploadPack sess r.ctx upr with
          | error e => simp [fail500]
          | ok res =>
            dsimp only
            cases he : (env.encodeUploadPackResponse res).err <;>
              simp [finishEncode, fail500, he]
  · simp only [Handler.run, httpGitReceivePack, logger]
    cases env.decodeReferenceUpdateRequest r.body with
    | error e => simp [fail500]
    | ok rer =>
      dsimp only
      cases env.newEndpoint gitpath with
      | error e => simp [fail500]
      | ok ep =>
        dsimp only
        cases env.newReceivePackSession ep with
        | error e => simp [fail500]
        | ok sess =>
          dsimp only
          cases env.receivePack sess r.ctx rer with
          | error e => simp [fail500]
          | ok res =>
            dsimp only
            cases he : (env.encodeReportStatus res).err <;>
              simp [finishEncode, fail500, he]

/-- Claim C7, amended: routing depends on the path only.  The advertisement
handler serves every request whose path is `/info/refs`, the upload-pack and
receive-pack handlers every request whose path is `/git-upload-pack` and
`/git-receive-pack`, whatever the method; no other path reaches a handler.
The method of a request only appears in the method/path line logged first:
with any other method the handler performs the same processing and ends the
same way. -/
theorem routing_is_by_path_only (env : Env) (r : Request) (m : String) :
    route { r with method := m } = route r ∧
    (route r = some Handler.infoRefs ↔ r.path = "/info/refs") ∧
    (route r = some Handler.gitUploadPack ↔ r.path = "/git-upload-pack") ∧
    (route r = some Handler.gitReceivePack ↔ r.path = "/git-receive-pack") ∧
    (route r = none → serve env r = none ∧ serve env { r with method := m } = none) ∧
    (∀ h, route r = some h →
      serve env r = some (h.run env r) ∧
      serve env { r with method := m } = some (h.run env { r with method := m }) ∧
      (h.run env r).events.head? = some (Event.log (r.method ++ " " ++ r.path)) ∧
      (h.run env { r with method := m }).events
        = Event.log (m ++ " " ++ r.path) :: (h.run env r).events.tail ∧
      (h.run env { r with method := m }).exit = (h.run env r).exit) := by
  refine ⟨rfl, ?_, ?_, ?_, ?_, ?_⟩
  · rw [route_eq]
    by_cases h1 : r.path = "/info/refs"
    · simp [h1]
    · simp only [h1, if_false, iff_false]
      split_ifs <;> simp
  · rw [route_eq]
    by_cases h2 : r.path = "/git-upload-pack"
    · simp [h2]
    · simp only [h2, if_false, iff_false]
      split_ifs <;> simp
  · rw [route_eq]
    by_cases h3 : r.path = "/git-receive-pack"
    · simp [h3]
    · simp only [h3, if_false, iff_false]
      split_ifs <;> simp
  · intro h
    have hm : route { r with method := m } = none := h
    exact ⟨by simp [serve, h], by simp only [serve, hm, Option.map_none']⟩
  · intro h hr
    have hm : route { r with method := m } = some h := hr
    exact ⟨by simp [serve, hr], by simp only [serve, hm, Option.map_some'],
      run_with_method h env r m⟩

/-- Claim C7, amended, at a concrete input: `/info/refs` requested with `PUT`
instead of `GET`. -/
theorem routing_is_by_path_only_witness :
    route (getRequest "/info/refs" [("service", "git-upload-pack")]) = some Handler.infoRefs ∧
    (httpInfoRefs okEnv { getRequest "/info/refs" [("service", "git-upload-pack")] with
      method := "PUT" }).events
      = Event.log "PUT /info/refs" ::
        (httpInfoRefs okEnv (getRequest "/info/refs" [("service", "git-upload-pack")])).events.tail :=
  ⟨by decide, ((routing_is_by_path_only okEnv
    (getRequest "/info/refs" [("service", "git-upload-pack")]) "PUT").2.2.2.2.2
    Handler.infoRefs (by decide)).2.2.2.1⟩

/-! ## Error responses and logging -/

/-- Claim C9: evaluation of `httpInfoRefs` at `GET /info/refs` without a
`service` parameter, with resolving collaborators.  The status 400 is written,
and the only log entry of the run is the method/path line: the error response
is not logged, and the handler does not return. -/
theorem httpInfoRefs_400_not_logged :
    (response (httpInfoRefs okEnv (getRequest "/info/refs" [])).events).status = some 400 ∧
    logLines (httpInfoRefs okEnv (getRequest "/info/refs" [])).events = ["GET /info/refs"] ∧
    (httpInfoRefs okEnv (getRequest "/info/refs" [])).exit = Exit.panicked := by
  decide

theorem errorResponse_isResponseWrite (ev : Event) (h : ev.isErrorResponse = true) :
    ev.isResponseWrite = true := by
  cases ev <;> simp_all [Event.isErrorResponse, Event.isResponseWrite]

theorem quietAfterError_sound (evs : List Event) (h : quietAfterError evs = true) :
    ∀ pre msg code post, evs = pre ++ Event.httpError msg code :: post →
      ∀ ev ∈ post, ev.isResponseWrite = false := by
  induction evs with
  | nil => intro pre msg code post hd; simp at hd
  | cons x xs ih =>
    intro pre msg code post hd ev hev
    cases pre with
    | nil =>
      simp only [List.nil_append, List.cons.injEq] at hd
      obtain ⟨hx, hxs⟩ := hd
      subst hx hxs
      simp only [quietAfterError, Event.isErrorResponse, if_true, List.all_eq_true,
        Bool.not_eq_true'] at h
      exact h ev hev
    | cons y ys =>
      simp only [List.cons_append, List.cons.injEq] at hd
      obtain ⟨hx, hxs⟩ := hd
      subst hx
      by_cases hy : x.isErrorResponse = true
      · simp only [quietAfterError, hy, if_true, List.all_eq_true, Bool.not_eq_true'] at h
        have h1 := h (Event.httpError msg code) (by rw [hxs]; simp)
        simp [Event.isResponseWrite] at h1
      · simp only [quietAfterError, hy, if_false] at h
        exact ih h ys msg code post hxs ev hev

theorem quietAfterError_count (evs : List Event) (h : quietAfterError evs = true) :
    (evs.filter Event.isErrorResponse).length ≤ 1 := by
  induction evs with
  | nil => simp
  | cons x xs ih =>
    by_cases hx : x.isErrorResponse = true
    · simp only [quietAfterError, hx, if_true, List.all_eq_true, Bool.not_eq_true'] at h
      have hnone : xs.filter Event.isErrorResponse = [] := by
        rw [List.filter_eq_nil_iff]
        intro a ha hae
        have := errorResponse_isResponseWrite a hae
        rw [h a ha] at this
        exact Bool.false_ne_true this
      simp [List.filter_cons, hx, hnone]
    · simp only [quietAfterError, hx, if_false] at h
      simp only [List.filter_cons, hx, if_false]
      exact ih h

theorem quietAfterError_writes (ws : List String) (rest : List Event) :
    quietAfterError (ws.map Event.write ++ rest) = quietAfterError rest := by
  induction ws with
  | nil => rfl
  | cons c cs ih => simpa [quietAfterError, Event.isErrorResponse] using ih

theorem quietAfterError_finishEncode (pre : List Event) (call : Event) (o : EncodeOutcome)
    (hpre : pre.all (fun e => !e.isErrorResponse) = true)
    (hcall : call.isErrorResponse = false) :
    quietAfterError (finishEncode pre call o).events = true := by
  have key : ∀ rest, quietAfterError (pre ++ call :: (o.written.map Event.write ++ rest))
      = quietAfterError rest := by
    intro rest
    induction pre with
    | nil => simp [quietAfterError, hcall, quietAfterError_writes]
    | cons x xs ih =>
      simp only [List.all_cons, Bool.and_eq_true, Bool.not_eq_true'] at hpre
      simp only [List.cons_append, quietAfterError, hpre.1]
      exact ih hpre.2
  cases he : o.err with
  | none =>
    have := key []
    simpa [finishEncode, he, encodeEvents, quietAfterError] using this
  | some e =>
    have := key [Event.httpError e 500, Event.log e]
    simpa [finishEncode, he, encodeEvents, fail500, quietAfterError, Event.isErrorResponse,
      Event.isResponseWrite] using this

/-- In every run of every handler no response write follows an error
response. -/
theorem run_quiet (h : Handler) (env : Env) (r : Request) :
    quietAfterError (h.run env r).events = true := by
  cases h
  · simp only [Handler.run, httpInfoRefs, logger]
    cases env.newEndpoint gitpath with
    | error e => simp [fail500, quietAfterError, Event.isErrorResponse, Event.isResponseWrite]
    | ok ep =>
      dsimp only
      rcases hop : openAdvertiser env (r.queryGet "service") ep with ⟨evs, _ | s, _ | e⟩
      · simp only [openAdvertiser] at hop
        split_ifs at hop
        · cases hs : env.newUploadPackSession ep <;> simp [hs] at hop
        · cases hs : env.newReceivePackSession ep <;> simp [hs] at hop
        · simp only [Prod.mk.injEq, and_true] at hop
          subst hop
          simp [quietAfterError, Event.isErrorResponse, Event.isResponseWrite]
      · simp only [openAdvertiser] at hop
        split_ifs at hop
        · cases hs : env.newUploadPackSession ep <;> simp [hs] at hop
          obtain ⟨h1, h2⟩ := hop
          subst h1 h2
          simp [fail500, quietAfterError, Event.isErrorResponse, Event.isResponseWrite]
        · cases hs : env.newReceivePackSession ep <;> simp [hs] at hop
          obtain ⟨h1, h2⟩ := hop
          subst h1 h2
          simp [fail500, quietAfterError, Event.isErrorResponse, Event.isResponseWrite]
        · simp at hop
      · simp only [openAdvertiser] at hop
        have hevs : evs.all (fun e => !e.isErrorResponse) = true := by
          split_ifs at hop
          · cases hs : env.newUploadPackSession ep <;> simp [hs] at hop
            obtain ⟨h1, _⟩ := hop
            subst h1
            rfl
          · cases hs : env.newReceivePackSession ep <;> simp [hs] at hop
            obtain ⟨h1, _⟩ := hop
            subst h1
            rfl
          · simp at hop
        dsimp only
        cases env.advertisedReferences s r.ctx with
        | error e =>
          simp only [List.all_eq_true, Bool.not_eq_true'] at hevs
          have key : ∀ rest, quietAfterError (evs ++ rest) = quietAfterError rest := by
            intro rest
            clear hop
            induction evs with
            | nil => rfl
            | cons x xs ih =>
              have hx := hevs x (by simp)
              simp only [List.cons_append, quietAfterError, hx]
              exact ih (fun a ha => hevs a (by simp [ha]))
          simp [fail500, quietAfterError, Event.isErrorResponse, Event.isResponseWrite, key]
        | ok ar =>
          dsimp only
          apply quietAfterError_finishEncode
          · simpa [Event.isErrorResponse] using hevs
          · rfl
      · simp only [openAdvertiser] at hop
        split_ifs at hop
        · cases hs : env.newUploadPackSession ep <;> simp [hs] at hop
        · cases hs : env.newReceivePackSession ep <;> simp [hs] at hop
        · simp at hop
  · simp only [Handler.run, httpGitUploadPack, logger]
    cases env.decodeUploadPackRequest r.body with
    | error e => simp [fail500, quietAfterError, Event.isErrorResponse, Event.isResponseWrite]
    | ok upr =>
      dsimp only
      cases env.newEndpoint gitpath with
      | error e => simp [fail500, quietAfterError, Event.isErrorResponse, Event.isResponseWrite]
      | ok ep =>
        dsimp only
        cases env.newUploadPackSession ep with
        | error e =>
          simp [fail500, quietAfterError, Event.isErrorResponse, Event.isResponseWrite]
        | ok sess =>
          dsimp only
          cases env.uploadPack sess r.ctx upr with
          | error e =>
            simp [fail500, quietAfterError, Event.isErrorResponse, Event.isResponseWrite]
          | ok res =>
            dsimp only
            exact quietAfterError_finishEncode _ _ _ rfl rfl
  · simp only [Handler.run, httpGitReceivePack, logger]
    cases env.decodeReferenceUpdateRequest r.body with
    | error e => simp [fail500, quietAfterError, Event.isErrorResponse, Event.isResponseWrite]
    | ok rer =>
      dsimp only
      cases env.newEndpoint gitpath with
      | error e => simp [fail500, quietAfterError, Event.isErrorResponse, Event.isResponseWrite]
      | ok ep =>
        dsimp only
        cases env.newReceivePackSession ep with
        | error e =>
          simp [fail500, quietAfterError, Event.isErrorResponse, Event.isResponseWrite]
        | ok sess =>
          dsimp only
          cases env.receivePack sess r.ctx rer with
          | error e =>
            simp [fail500, quietAfterError, Event.isErrorResponse, Event.isResponseWrite]
          | ok res =>
            dsimp only
            exact quietAfterError_finishEncode _ _ _ rfl rfl

/-- Claim C10: for each of the three handlers and every combination of
outcomes of the collaborator calls, the run contains at most one error
response, and no write to the response (header set, body write or error
response) follows an error response. -/
theorem error_response_is_last_write (h : Handler) (env : Env) (r : Request) :
    ((h.run env r).events.filter Event.isErrorResponse).length ≤ 1 ∧
    (∀ pre msg code post, (h.run env r).events = pre ++ Event.httpError msg code :: post →
      ∀ ev ∈ post, ev.isResponseWrite = false) :=
  ⟨quietAfterError_count _ (run_quiet h env r), quietAfterError_sound _ (run_quiet h env r)⟩

/-- Claim C10 at a concrete input: the run with a failing upload-pack encoder,
split at its error response. -/
theorem error_response_is_last_write_witness :
    (httpGitUploadPack brokenPackEnv (postRequest "/git-upload-pack" "0032want")).events =
      [Event.log "POST /git-upload-pack",
       Event.headerSet "Content-Type" "application/x-git-upload-pack-result",
       Event.decodeUploadPackRequest "0032want",
       Event.newEndpoint "/tmp/usertest/test.git",
       Event.newUploadPackSession ⟨"/tmp/usertest/test.git"⟩,
       Event.uploadPack ⟨1⟩ ⟨7⟩ ⟨["0032want"], []⟩,
       Event.encodeUploadPackResponse ⟨[], "PACK"⟩,
       Event.write "0008NAK\n"] ++
      Event.httpError "pack stream broken" 500 :: [Event.log "pack stream broken"] ∧
    ∀ ev ∈ [Event.log "pack stream broken"], ev.isResponseWrite = false :=
  ⟨by decide, (error_response_is_last_write Handler.gitUploadPack brokenPackEnv
    (postRequest "/git-upload-pack" "0032want")).2
    [Event.log "POST /git-upload-pack",
     Event.headerSet "Content-Type" "application/x-git-upload-pack-result",
     Event.decodeUploadPackRequest "0032want",
     Event.newEndpoint "/tmp/usertest/test.git",
     Event.newUploadPackSession ⟨"/tmp/usertest/test.git"⟩,
     Event.uploadPack ⟨1⟩ ⟨7⟩ ⟨["0032want"], []⟩,
     Event.encodeUploadPackResponse ⟨[], "PACK"⟩,
     Event.write "0008NAK\n"] "pack stream broken" 500
    [Event.log "pack stream broken"] (by decide)⟩

/-! ## Which session a handler opens -/

/-- Claim C8, as stated, fails: the pack handlers do not always open a session
and call the operation.  When the body fails to decode, `httpGitUploadPack`
and `httpGitReceivePack` stop after the decode step: no endpoint is resolved,
no session is opened and no operation is called.  When the session provider
refuses the session, `httpGitUploadPack` stops after the open step and
`UploadPack` is not called. -/
theorem pack_handlers_stop_before_session :
    httpGitUploadPack badBodyEnv (postRequest "/git-upload-pack" "zzzz") =
      ⟨[Event.log "POST /git-upload-pack",
        Event.headerSet "Content-Type" "application/x-git-upload-pack-result",
        Event.decodeUploadPackRequest "zzzz",
        Event.httpError "invalid pkt-len found" 500,
        Event.log "invalid pkt-len found"], Exit.returned⟩ ∧
    (httpGitUploadPack badBodyEnv (postRequest "/git-upload-pack" "zzzz")).events.all
      (fun ev => !ev.isSessionOpen) = true ∧
    httpGitReceivePack badBodyEnv (postRequest "/git-receive-pack" "zzzz") =
      ⟨[Event.log "POST /git-receive-pack",
        Event.headerSet "Content-Type" "application/x-git-receive-pack-result",
        Event.decodeReferenceUpdateRequest "zzzz",
        Event.httpError "invalid pkt-len found" 500,
        Event.log "invalid pkt-len found"], Exit.returned⟩ ∧
    (httpGitReceivePack badBodyEnv (postRequest "/git-receive-pack" "zzzz")).events.all
      (fun ev => !ev.isSessionOpen) = true ∧
    httpGitUploadPack noSessionEnv (postRequest "/git-upload-pack" "0032want") =
      ⟨[Event.log "POST /git-upload-pack",
        Event.headerSet "Content-Type" "application/x-git-upload-pack-result",
        Event.decodeUploadPackRequest "0032want",
        Event.newEndpoint "/tmp/usertest/test.git",
        Event.newUploadPackSession ⟨"/tmp/usertest/test.git"⟩,
        Event.httpError "repository not found" 500,
        Event.log "repository not found"], Exit.returned⟩ := by
  decide

/-- Claim C8, amended: every handler opens only the session of the service the
request names, and only once the steps before it have succeeded.
`httpInfoRefs`, once the endpoint has resolved, opens an upload-pack session
exactly when the service value is `git-upload-pack` and a receive-pack session
exactly when it is `git-receive-pack`, and asks the session it opened for its
references with the context of the request.  `httpGitUploadPack` opens no
session but an upload-pack one; once the body has decoded and the endpoint has
resolved it opens it, and once the session has opened it calls `UploadPack` on
it with the context of the request and the decoded message; it calls
`UploadPack` in no other case.  Likewise `httpGitReceivePack` with a
receive-pack session and `ReceivePack`. -/
theorem handlers_open_named_session (env : Env) (r : Request) :
    ((∀ ep, env.newEndpoint gitpath = .ok ep →
        (Event.newUploadPackSession ep ∈ (httpInfoRefs env r).events
          ↔ r.queryGet "service" = "git-upload-pack") ∧
        (Event.newReceivePackSession ep ∈ (httpInfoRefs env r).events
          ↔ r.queryGet "service" = "git-receive-pack")) ∧
     (∀ ep, Event.newUploadPackSession ep ∈ (httpInfoRefs env r).events →
        r.queryGet "service" = "git-upload-pack" ∧ env.newEndpoint gitpath = .ok ep) ∧
     (∀ ep, Event.newReceivePackSession ep ∈ (httpInfoRefs env r).events →
        r.queryGet "service" = "git-receive-pack" ∧ env.newEndpoint gitpath = .ok ep) ∧
     (∀ ep sess, env.newEndpoint gitpath = .ok ep →
        (if r.queryGet "service" = "git-upload-pack" then env.newUploadPackSession ep
          else env.newReceivePackSession ep) = .ok sess →
        recognized (r.queryGet "service") = true →
        Event.advertisedReferences (some sess) r.ctx ∈ (httpInfoRefs env r).events) ∧
     (∀ sess c, Event.advertisedReferences (some sess) c ∈ (httpInfoRefs env r).events →
        c = r.ctx ∧ recognized (r.queryGet "service") = true ∧
        ∃ ep, env.newEndpoint gitpath = .ok ep ∧
          (if r.queryGet "service" = "git-upload-pack" then env.newUploadPackSession ep
            else env.newReceivePackSession ep) = .ok sess)) ∧
    ((∀ upr ep, env.decodeUploadPackRequest r.body = .ok upr → env.newEndpoint gitpath = .ok ep →
        Event.newUploadPackSession ep ∈ (httpGitUploadPack env r).events) ∧
     (∀ upr ep sess, env.decodeUploadPackRequest r.body = .ok upr → env.newEndpoint gitpath = .ok ep →
        env.newUploadPackSession ep = .ok sess →
        Event.uploadPack sess r.ctx upr ∈ (httpGitUploadPack env r).events) ∧
     (∀ ev ∈ (httpGitUploadPack env r).events, ev.isSessionOpen = true →
        ∃ ep, ev = Event.newUploadPackSession ep ∧ env.newEndpoint gitpath = .ok ep) ∧
     (∀ sess c q, Event.uploadPack sess c q ∈ (httpGitUploadPack env r).events →
        c = r.ctx ∧ env.decodeUploadPackRequest r.body = .ok q ∧
        ∃ ep, env.newEndpoint gitpath = .ok ep ∧ env.newUploadPackSession ep = .ok sess) ∧
     (∀ sess c q, Event.receivePack sess c q ∉ (httpGitUploadPack env r).events) ∧
     (∀ sess c, Event.advertisedReferences sess c ∉ (httpGitUploadPack env r).events)) ∧
    ((∀ rer ep, env.decodeReferenceUpdateRequest r.body = .ok rer → env.newEndpoint gitpath = .ok ep →
        Event.newReceivePackSession ep ∈ (httpGitReceivePack env r).events) ∧
     (∀ rer ep sess, env.decodeReferenceUpdateRequest r.body = .ok rer → env.newEndpoint gitpath = .ok ep →
        env.newReceivePackSession ep = .ok sess →
        Event.receivePack sess r.ctx rer ∈ (httpGitReceivePack env r).events) ∧
     (∀ ev ∈ (httpGitReceivePack env r).events, ev.isSessionOpen = true →
        ∃ ep, ev = Event.newReceivePackSession ep ∧ env.newEndpoint gitpath = .ok ep) ∧
     (∀ sess c q, Event.receivePack sess c q ∈ (httpGitReceivePack env r).events →
        c = r.ctx ∧ env.decodeReferenceUpdateRequest r.body = .ok q ∧
        ∃ ep, env.newEndpoint gitpath = .ok ep ∧ env.newReceivePackSession ep = .ok sess) ∧
     (∀ sess c q, Event.uploadPack sess c q ∉ (httpGitReceivePack env r).events) ∧
     (∀ sess c, Event.advertisedReferences sess c ∉ (httpGitReceivePack env r).events)) := by
  refine ⟨?_, ?_, ?_⟩
  · simp only [httpInfoRefs, logger]
    cases h1 : env.newEndpoint gitpath with
    | error e => simp [fail500]
    | ok ep0 =>
      dsimp only
      by_cases hu : r.queryGet "service" = "git-upload-pack"
      · simp only [openAdvertiser, hu, if_true]
        cases h2 : env.newUploadPackSession ep0 with
        | error e => (simp [fail500, recognized]; intros; subst_vars; simp_all)
        | ok s0 =>
          dsimp only
          cases h3 : env.advertisedReferences s0 r.ctx with
          | error e => (simp [fail500, recognized, h2]; intros; subst_vars; simp_all)
          | ok ar =>
            dsimp only
            cases he : (env.encodeAdvRefs (setPrefix ar "git-upload-pack")).err <;>
              (simp [finishEncode, fail500, encodeEvents, he, recognized, h2]; intros
               subst_vars; simp_all)
      · by_cases hr : r.queryGet "service" = "git-receive-pack"
        · have hne : ¬ ("git-receive-pack" = "git-upload-pack") := by decide
          simp only [openAdvertiser, hr, hne, if_true, if_false]
          cases h2 : env.newReceivePackSession ep0 with
          | error e => (simp [fail500, recognized]; intros; subst_vars; simp_all)
          | ok s0 =>
            dsimp only
            cases h3 : env.advertisedReferences s0 r.ctx with
            | error e => (simp [fail500, recognized, h2]; intros; subst_vars; simp_all)
            | ok ar =>
              dsimp only
              cases he : (env.encodeAdvRefs (setPrefix ar "git-receive-pack")).err <;>
                (simp [finishEncode, fail500, encodeEvents, he, recognized, h2]; intros
                 subst_vars; simp_all)
        · simp [openAdvertiser, hu, hr, recognized]
  · simp only [httpGitUploadPack, logger]
    cases h1 : env.decodeUploadPackRequest r.body with
    | error e => simp [fail500, Event.isSessionOpen]
    | ok q0 =>
      dsimp only
      cases h2 : env.newEndpoint gitpath with
      | error e => simp [fail500, Event.isSessionOpen]
      | ok ep0 =>
        dsimp only
        cases h3 : env.newUploadPackSession ep0 with
        | error e =>
          simp [fail500, Event.isSessionOpen]
          intros; subst_vars; simp_all
        | ok sess0 =>
          dsimp only
          cases h4 : env.uploadPack sess0 r.ctx q0 with
          | error e =>
            simp [fail500, Event.isSessionOpen, h3]
            (repeat' apply And.intro) <;> (intros; subst_vars; simp_all)
          | ok res =>
            dsimp only
            cases he : (env.encodeUploadPackResponse res).err <;>
              simp [finishEncode, fail500, encodeEvents, he, Event.isSessionOpen, h3] <;>
              (repeat' apply And.intro) <;>
              first
                | (intros; subst_vars; simp_all)
                | (rintro a (⟨c, _, rfl⟩ | rfl | rfl) <;> simp)
  · simp only [httpGitReceivePack, logger]
    cases h1 : env.decodeReferenceUpdateRequest r.body with
    | error e => simp [fail500, Event.isSessionOpen]
    | ok q0 =>
      dsimp only
      cases h2 : env.newEndpoint gitpath with
      | error e => simp [fail500, Event.isSessionOpen]
      | ok ep0 =>
        dsimp only
        cases h3 : env.newReceivePackSession ep0 with
        | error e =>
          simp [fail500, Event.isSessionOpen]
          intros; subst_vars; simp_all
        | ok sess0 =>
          dsimp only
          cases h4 : env.receivePack sess0 r.ctx q0 with
          | error e =>
            simp [fail500, Event.isSessionOpen, h3]
            (repeat' apply And.intro) <;> (intros; subst_vars; simp_all)
          | ok res =>
            dsimp only
            cases he : (env.encodeReportStatus res).err <;>
              simp [finishEncode, fail500, encodeEvents, he, Event.isSessionOpen, h3] <;>
              (repeat' apply And.intro) <;>
              first
                | (intros; subst_vars; simp_all)
                | (rintro a (⟨c, _, rfl⟩ | rfl | rfl) <;> simp)

/-- Claim C8, amended, at a concrete input: a fetch posted to `/git-upload-pack` with
collaborators that all succeed. -/
theorem handlers_open_named_session_witness :
    okEnv.decodeUploadPackRequest (postRequest "/git-upload-pack" "0032want").body
      = .ok ⟨["0032want"], []⟩ ∧
    Event.uploadPack ⟨1⟩ ⟨7⟩ ⟨["0032want"], []⟩ ∈
      (httpGitUploadPack okEnv (postRequest "/git-upload-pack" "0032want")).events :=
  ⟨rfl, (handlers_open_named_session okEnv (postRequest "/git-upload-pack" "0032want")).2.1.2.1
    ⟨["0032want"], []⟩ ⟨gitpath⟩ ⟨1⟩ rfl rfl rfl⟩

end GitServer
